import Mathlib

/-!
# Verification of the attorney-matching risk-analysis pipeline

A shallow embedding of the risk-analysis pipeline of the `attorneymatching`
repository (`services/risk_analysis_service.py` and the collaborators it
invokes), together with proofs about the embedded operations.

Modelling conventions:
* Python machine integers are `Nat`/`Int` (no overflow is possible in the
  scored quantities); the floating-point confidence score is modelled by `Rat`
  (all code paths manipulate it only by comparison and defaulting).
* External collaborators (the Cosmos record store, the two Azure search
  indexes, the OpenAI chat endpoint) are inputs of the pipeline: each call
  outcome is an `Except Unit`-value supplied by the environment, so theorems
  quantify over every collaborator behaviour.
* `json.loads` is an external library function; it is modelled as an
  environment-supplied partial function `String → Option JVal` producing a
  JSON value tree (`none` = parse error).
* Python string operations used by the code (`str.replace`, `str.strip`,
  `str.startswith`, slicing and `re.findall` on the fixed attorney-id
  pattern) are embedded as executable character-list functions below.
-/

namespace AttorneyMatching

/-- One entry of the practice-area list of an attorney
(`models/attorney.py`, `PracticeAreaInput`/`PracticeAreaStored`; the linked
document lists never reach the pipeline and are omitted). -/
structure PracticeAreaEntry where
  area : String
  proficiency : String
  years_in_practice : Nat
deriving DecidableEq, Repr

/-- Stored attorney profile (`models/attorney.py`, `AttorneyStored`;
timestamp fields are never read by the pipeline and are omitted). -/
structure Attorney where
  attorney_id : String
  name : String
  email : String
  seniority : String
  years_of_experience : Nat
  practice_areas : List PracticeAreaEntry
deriving DecidableEq, Repr

/-- A document returned by one of the two Azure AI Search indexes
(`services/ai_search_service.py`, result dictionaries with keys
`content`/`source`/`path`/`score`). -/
structure RetrievedDoc where
  content : String
  source : String
  path : String
  score : Rat
deriving DecidableEq, Repr

/-- A stored public-source record (`models/public_source.py`,
`PublicSourceStored`; only the fields read by the pipeline are kept, with
`url` standing for `reference.url`). -/
structure PublicSource where
  title : String
  risk_area : Option String
  summary : Option String
  jurisdiction : Option String
  impact_level : Option String
  url : String
  enrichment_status : String
deriving DecidableEq, Repr

/-- `risk_analysis_model.RiskAnalysisRequest`. `companyemail` and
`companyphonenumber` are optional. -/
structure RiskAnalysisRequest where
  companyName : String
  companyemail : Option String
  companyphonenumber : Option String
  practicearea : String
deriving DecidableEq, Repr

/-- `risk_analysis_model.ReferenceItem`. -/
structure ReferenceItem where
  label : String
  url : String
deriving DecidableEq, Repr

/-- `risk_analysis_model.RecommendedAttorney`. -/
structure RecommendedAttorney where
  name : String
  role : String
  reason : String
  match_score : Nat
  attorney_id : Option String
  email : Option String
deriving DecidableEq, Repr

/-- `risk_analysis_model.RiskAnalysisResponse`; its pydantic model constrains
`confidence_score` by `ge=1.0, le=100.0` (enforced in
`mkRiskAnalysisResponse` below). -/
structure RiskAnalysisResponse where
  company : String
  practice_area : String
  risks : List String
  references : List ReferenceItem
  recommended_attorneys : List RecommendedAttorney
  email_template : String
  confidence_score : Rat
deriving DecidableEq, Repr

/-! ## Attorney scoring (`_find_matching_attorneys`, lines 394-425) -/

/-- The per-entry proficiency bonus dictionary (lines 402-408);
the dictionary lookup with default 0 yields 0 for unrecognized levels. -/
def proficiencyBonus : String → Nat
  | "Expert" => 20
  | "Advanced" => 15
  | "Intermediate" => 10
  | "Beginner" => 5
  | _ => 0

/-- The seniority bonus dictionary (lines 411-417); applied once. -/
def seniorityBonus : String → Nat
  | "Senior Partner" => 20
  | "Partner" => 15
  | "Senior Associate" => 10
  | "Associate" => 5
  | _ => 0

/-- The score loop of `_find_matching_attorneys` (lines 394-425): starting
from 0, each practice-area entry whose `area` equals the target adds
40 plus its proficiency bonus; then one seniority bonus, the experience
bonus `min(years_of_experience, 20)`, and 30 when the id of the attorney occurs
in the historical-identifier evidence. -/
def scoreAttorney (practiceArea : String) (historicalIds : List String)
    (a : Attorney) : Nat :=
  (a.practice_areas.foldl
    (fun acc pa =>
      if pa.area = practiceArea then acc + 40 + proficiencyBonus pa.proficiency
      else acc) 0) +
  seniorityBonus a.seniority + min a.years_of_experience 20 +
    (if a.attorney_id ∈ historicalIds then 30 else 0)

/-- The worked example from the documentation: a Partner with 25 years of
experience and a single matching practice-area entry at Expert proficiency. -/
def examplePartner : Attorney :=
  { attorney_id := "ATT-00000001"
    name := "Jane Doe"
    email := "jane@example.com"
    seniority := "Partner"
    years_of_experience := 25
    practice_areas := [{ area := "Tax", proficiency := "Expert", years_in_practice := 25 }] }

/-! ## Python string primitives

Executable embeddings of the Python string operations the pipeline uses.
They work on `List Char` (the `data` of a `String`) so that every function
is structurally recursive and kernel-evaluable. -/

/-- Python `str.strip()` whitespace (the ASCII whitespace characters; the
strings manipulated by the pipeline are ASCII). -/
def isPySpace (c : Char) : Bool :=
  c = ' ' || c = '\t' || c = '\n' || c = '\r' || c = '\x0b' || c = '\x0c'

/-- Python `s.strip()`: remove leading and trailing whitespace. -/
def pyStrip (s : String) : String :=
  ⟨((s.data.dropWhile isPySpace).reverse.dropWhile isPySpace).reverse⟩

/-- Python `s.startswith(pre)`. -/
def pyStartsWith (s pre : String) : Bool :=
  pre.data.isPrefixOf s.data

/-- Fuel-driven core of Python `s.replace(pat, rep)`: scan left to right,
replacing each non-overlapping occurrence of `pat`; on a miss advance one
character.  One unit of fuel is spent per step, and every step consumes at
least one input character (the patterns used here are non-empty), so
`fuel = s.length` always suffices. -/
def replaceFuel (pat rep : List Char) : Nat → List Char → List Char
  | _, [] => []
  | 0, s => s
  | n + 1, c :: rest =>
    if pat.isPrefixOf (c :: rest) then
      rep ++ replaceFuel pat rep n ((c :: rest).drop pat.length)
    else
      c :: replaceFuel pat rep n rest

/-- Python `s.replace(pat, rep)` (all non-overlapping occurrences). -/
def pyReplace (s pat rep : String) : String :=
  ⟨replaceFuel pat.data rep.data s.data.length s.data⟩

/-- The markdown-fence stripping step of `_get_llm_risk_analysis`
(lines 300-305): if the response starts with "```json", Python
`replace` removes **every** occurrence of "```json" and then every
occurrence of "```", and strips the result; likewise for a plain "```"
opening; otherwise the response is left as is. -/
def stripMarkdown (s : String) : String :=
  if pyStartsWith s "```json" then
    pyStrip (pyReplace (pyReplace s "```json" "") "```" "")
  else if pyStartsWith s "```" then
    pyStrip (pyReplace s "```" "")
  else s

/-! ## Historical attorney-id extraction: the findall scan for the fixed pattern ATT- followed by eight characters from A-Z0-9 -/

/-- The character class `[A-Z0-9]`. -/
def upperAlnum (c : Char) : Bool :=
  ('A' ≤ c && c ≤ 'Z') || ('0' ≤ c && c ≤ '9')

/-- The backtick character (used by the fence-marker handling). -/
def backtickChar : Char := Char.ofNat 96

/-- A character list matches the identifier pattern `ATT-[A-Z0-9]{8}`
exactly: twelve characters, the literal prefix `ATT-`, then eight
characters from `[A-Z0-9]`. -/
def isAttIdPattern (l : List Char) : Bool :=
  l.length = 12 && "ATT-".data.isPrefixOf l && (l.drop 4).all upperAlnum

/-- Attempt to match the fixed-width pattern `ATT-[A-Z0-9]{8}` at the head of
the character list, returning the 12 matched characters. -/
def attHere (s : List Char) : Option (List Char) :=
  if isAttIdPattern (s.take 12) then some (s.take 12) else none

/-- Fuel-driven `re.findall` for the fixed pattern: collect non-overlapping
matches scanning left to right; after a match continue after its last
character, otherwise advance one character.  `fuel = s.length` suffices,
since every step consumes at least one character. -/
def findAllAttAux : Nat → List Char → List (List Char)
  | _, [] => []
  | 0, _ => []
  | n + 1, c :: rest =>
    match attHere (c :: rest) with
    | some m => m :: findAllAttAux n ((c :: rest).drop 12)
    | none => findAllAttAux n rest

/-- The findall scan over the content, as a list of strings. -/
def findAllAtt (content : String) : List String :=
  (findAllAttAux content.data.length content.data).map (fun l => ⟨l⟩)

/-- The historical-evidence extraction loop of `_find_matching_attorneys`
(lines 381-387): run `findall` over the content of every historical
document and pool the identifiers.  The Python code accumulates them into a
`set`; the pipeline only ever tests membership, which agrees with membership
in this concatenated list. -/
def extractHistoricalIds (historicalDocs : List RetrievedDoc) : List String :=
  historicalDocs.flatMap (fun doc => findAllAtt doc.content)

/-! ## JSON values and the model-response extraction (`_get_llm_risk_analysis`) -/

/-- A parsed JSON value, as produced by `json.loads`.  Numbers are modelled
by `Rat` (Python floats/ints; the pipeline only defaults or compares them). -/
inductive JVal where
  | jnull : JVal
  | jbool : Bool → JVal
  | jnum : Rat → JVal
  | jstr : String → JVal
  | jarr : List JVal → JVal
  | jobj : List (String × JVal) → JVal

/-- Python `dict.get(k, dflt)` on a parsed JSON object (`json.loads` already
collapses duplicate keys, so the field list is treated as the items of the dict). -/
def objGet (fields : List (String × JVal)) (k : String) (dflt : JVal) : JVal :=
  match fields.lookup k with
  | some v => v
  | none => dflt

/-- Whether Python `len(v)` succeeds (line 314 applies `len` to the extracted
`risks` value): lists, strings and dicts are sized; numbers, booleans and
`None` raise `TypeError`, which the surrounding `except` turns into the
fallback. -/
def pyHasLen : JVal → Bool
  | .jarr _ => true
  | .jstr _ => true
  | .jobj _ => true
  | _ => false

/-- Whether Python `f"{v:.2%}"` succeeds (line 315 formats the extracted
confidence): ints, floats and bools (an int subclass) accept the `%` format
code; strings, `None`, lists and dicts raise, which the surrounding
`except` turns into the fallback. -/
def pyPercentFormatOk : JVal → Bool
  | .jnum _ => true
  | .jbool _ => true
  | _ => false

/-- The three canned fallback risk statements of the `except` branch
(lines 337-341). -/
def fallbackRisks : JVal :=
  .jarr
    [.jstr "General compliance risk in the specified practice area requires assessment",
     .jstr "Regulatory changes may impact operations and require monitoring",
     .jstr "Documentation and reporting requirements need review"]

/-- The complete fallback result of `_get_llm_risk_analysis`: three canned
risks, no references, confidence 50. -/
def llmFallback : JVal × List ReferenceItem × JVal :=
  (fallbackRisks, [], .jnum 50)

/-- Python `title[:50]`. -/
def pyTake50 (s : String) : String :=
  ⟨s.data.take 50⟩

/-- The reference label built at lines 322-328: the risk-area value, a
dash, the first 50 characters of the title, and an ellipsis.  Stored
records always carry the risk_area key (possibly null, which the f-string
renders as the text None), so the default label Legal Update of the
dictionary lookup is never used. -/
def referenceLabel (src : PublicSource) : String :=
  (match src.risk_area with
   | some r => r
   | none => "None") ++ " - " ++ pyTake50 src.title ++ "..."

/-- The reference list built from the first five public-source records
(lines 322-328). -/
def buildReferences (publicSources : List PublicSource) : List ReferenceItem :=
  (publicSources.take 5).map (fun src => ⟨referenceLabel src, src.url⟩)

/-- `_get_llm_risk_analysis` (lines 260-341).  The model invocation is an
externally supplied outcome (`Except.error` = the chat call raised), and
`jsonParse` is the external `json.loads` (`none` = `JSONDecodeError`).  On
success the raw text is stripped, fence markers are removed, the text is
parsed, `risks`/`confidence_score` are extracted with their defaults, and
the two logging statements (`len(risks)` and the `%`-format of the
confidence) must succeed; any failure anywhere in this chain is caught by
the `except` and produces the fixed fallback.  The embedding is a total
function: no failure escapes. -/
def getLlmRiskAnalysis (invocation : Except Unit String)
    (jsonParse : String → Option JVal) (publicSources : List PublicSource) :
    JVal × List ReferenceItem × JVal :=
  match invocation with
  | .error _ => llmFallback
  | .ok raw =>
    match jsonParse (stripMarkdown (pyStrip raw)) with
    | none => llmFallback
    | some (.jobj fields) =>
      let risks := objGet fields "risks" (.jarr [])
      let confidence := objGet fields "confidence_score" (.jnum 85)
      if pyHasLen risks && pyPercentFormatOk confidence then
        (risks, buildReferences publicSources, confidence)
      else llmFallback
    | some _ => llmFallback

/-! ## Public-source matching (`_get_relevant_public_sources` and
`PublicSourceService.get_public_sources`) -/

/-- An optional filter argument is applied only when Python finds it truthy
(`if risk_area:` — both `None` and the empty string are falsy). -/
def appliesFilter : Option String → Bool
  | none => false
  | some v => !(v = "")

/-- `PublicSourceService.get_public_sources` (public_source_service.py,
lines 41-65): build a conjunction of equality conditions over the supplied
truthy filters and return the records of the store satisfying all of them (the
embedding of the generated `SELECT * FROM c WHERE ...`; a SQL comparison
with a null `risk_area` field is false). -/
def get_public_sources (store : List PublicSource)
    (risk_area jurisdiction enrichment_status : Option String) :
    List PublicSource :=
  store.filter (fun rec =>
    (match risk_area with
     | some v => if v = "" then true else rec.risk_area = some v
     | none => true) &&
    (match jurisdiction with
     | some v => if v = "" then true else rec.jurisdiction = some v
     | none => true) &&
    (match enrichment_status with
     | some v => if v = "" then true else rec.enrichment_status = v
     | none => true))

/-- The fixed practice-area → risk-area lookup table
(`_get_relevant_public_sources`, lines 135-145). -/
def riskAreaTable : List (String × List String) :=
  [("Corporate M&A", ["Corporate Governance", "Securities Law"]),
   ("Data Privacy", ["Data Protection"]),
   ("Intellectual Property", ["Intellectual Property"]),
   ("Tax", ["Tax"]),
   ("Employment", ["Employment"]),
   ("Compliance", ["Data Protection", "Corporate Governance", "Securities Law"]),
   ("Securities Law", ["Securities Law"]),
   ("Banking", ["Banking"]),
   ("Real Estate", ["Real Estate"])]

/-- `risk_area_mapping.get(practice_area, [practice_area])` (line 147). -/
def riskAreaMapping (practiceArea : String) : List String :=
  match riskAreaTable.lookup practiceArea with
  | some areas => areas
  | none => [practiceArea]

/-- `_get_relevant_public_sources` (lines 126-166): for each mapped risk
area, fetch the completed records and keep the first three, concatenating
across risk areas in mapping order. -/
def getRelevantPublicSources (store : List PublicSource)
    (practiceArea : String) : List PublicSource :=
  (riskAreaMapping practiceArea).flatMap (fun riskArea =>
    (get_public_sources store (some riskArea) none (some "completed")).take 3)

/-! ## Attorney matching (`_find_matching_attorneys`, lines 343-481) -/

/-- The sentinel recommendation returned when the attorney store is empty
(lines 372-379). -/
def noAttorneySentinel : RecommendedAttorney :=
  { name := "General Counsel"
    role := "Partner"
    reason := "No attorneys available in the system"
    match_score := 0
    attorney_id := none
    email := none }

/-- The comma-joined practice-area string, replaced by "General Practice"
when the join is empty (lines 452-454; Python tests the joined *string* for
truthiness). -/
def practiceAreasStr (a : Attorney) : String :=
  let joined := String.intercalate ", " (a.practice_areas.map (fun pa => pa.area))
  if joined = "" then "General Practice" else joined

/-- Build one `RecommendedAttorney` from a scored attorney (lines 448-470). -/
def toRecommended (historicalIds : List String) (a : Attorney) (score : Nat) :
    RecommendedAttorney :=
  let paStr := practiceAreasStr a
  { name := a.name
    role := a.seniority ++ ", " ++ paStr
    reason :=
      "Specializes in " ++ paStr ++ " with " ++ Nat.repr a.years_of_experience ++
        " years of experience. " ++
        (if a.attorney_id ∈ historicalIds then
          "Has handled similar matters based on historical engagements."
        else "")
    match_score := score
    attorney_id := some a.attorney_id
    email := some a.email }

/-- The comparison of the reversed sort by score at line 440: `x` precedes
`y` when the score of `y` is at most the score of `x`. -/
def scoreDescending (x y : Attorney × Nat) : Bool :=
  y.2 ≤ x.2

/-- `_find_matching_attorneys` (lines 343-481), with the two attorney
fetches supplied as inputs: `matching` is `get_attorneys(practice_area=…)`
and `fullPool` is `get_attorneys()`, consulted only when `matching` is
empty.  If both are empty the sentinel is returned.  Otherwise every
attorney is scored, the scored list is sorted by score descending —
the reversed Python list sort is a stable sort, embedded as
`List.mergeSort` with the comparison `scoreDescending` — and the first
`topN` entries are rendered as recommendations. -/
def findMatchingAttorneys (practiceArea : String)
    (historicalDocs : List RetrievedDoc) (matching fullPool : List Attorney)
    (topN : Nat) : List RecommendedAttorney :=
  let attorneys := if matching.isEmpty then fullPool else matching
  if attorneys.isEmpty then [noAttorneySentinel]
  else
    let historicalIds := extractHistoricalIds historicalDocs
    let scored := attorneys.map (fun a => (a, scoreAttorney practiceArea historicalIds a))
    let ranked := scored.mergeSort scoreDescending
    (ranked.take topN).map (fun p => toRecommended historicalIds p.1 p.2)

/-! ## Collaborator environment and the orchestrator (`analyze_company_risks`) -/

/-- The view one pipeline invocation has of the external collaborators.
`Except.error` models the collaborator call raising; orchestrator behaviour
is quantified over all such environments.  The two search-index calls
already return the accumulated result list (a mid-iteration failure with
partial accumulation is the same behaviour as a successful shorter
response).  The two Cosmos record stores are shared by every query of one
request. -/
structure Env where
  internalDocs : Except Unit (List RetrievedDoc)
  historicalDocs : Except Unit (List RetrievedDoc)
  publicDb : Except Unit (List PublicSource)
  attorneyDb : Except Unit (List Attorney)
  llm : Except Unit String
  jsonParse : String → Option JVal

/-- The per-collection `try/except` of `AISearchService`
(`search_internal_documents` / `search_historical_data`): a failing search
logs and returns the empty list — retrieval never raises. -/
def searchCaught (outcome : Except Unit (List RetrievedDoc)) : List RetrievedDoc :=
  match outcome with
  | .error _ => []
  | .ok docs => docs

/-- The RAG context assembled by `_retrieve_rag_context` via
`search_both_indexes`. -/
structure RagContext where
  internal : List RetrievedDoc
  historical : List RetrievedDoc

/-- `_retrieve_rag_context` (lines 101-124): search both indexes; each
collection degrades to empty on failure. -/
def retrieveRagContext (env : Env) : RagContext :=
  { internal := searchCaught env.internalDocs
    historical := searchCaught env.historicalDocs }

/-- The partial-match ARRAY_CONTAINS filter on the area field used by
`AttorneyService.get_attorneys` (attorney_service.py, line 66): partial
object match on the `area` field. -/
def hasPracticeArea (practiceArea : String) (a : Attorney) : Bool :=
  a.practice_areas.any (fun pa => pa.area = practiceArea)

/-- `_get_relevant_public_sources` at orchestrator level: the record-store
queries carry no exception handling (`PublicSourceService.get_public_sources`
and `DatabaseService.query_items` have no `try`), so a store failure
propagates. -/
def getRelevantPublicSourcesE (env : Env) (practiceArea : String) :
    Except Unit (List PublicSource) :=
  env.publicDb.map (fun store => getRelevantPublicSources store practiceArea)

/-- `_find_matching_attorneys` at orchestrator level: the attorney fetches
(`AttorneyService.get_attorneys`, no `try`) propagate store failures; the
rest of the matching is pure. -/
def findMatchingAttorneysE (env : Env) (practiceArea : String)
    (historicalDocs : List RetrievedDoc) : Except Unit (List RecommendedAttorney) :=
  env.attorneyDb.map (fun store =>
    findMatchingAttorneys practiceArea historicalDocs
      (store.filter (hasPracticeArea practiceArea)) store 3)

/-- Python `str(v)` as used on a risk inside an f-string.  Only the string
case is ever observable through the claims; the remaining cases mirror
Python loosely and are never produced by the guarded success path for
well-formed risk lists. -/
def pyStrOf : JVal → String
  | .jstr s => s
  | .jnum q => toString q
  | .jbool b => if b then "True" else "False"
  | .jnull => "None"
  | .jarr _ => "<list>"
  | .jobj _ => "<dict>"

/-- Python iteration over the risks value (guarded by the earlier `len`
check: lists yield elements, strings yield 1-character strings, dicts yield
their keys). -/
def jvalIter : JVal → List JVal
  | .jarr xs => xs
  | .jstr s => s.data.map (fun c => .jstr ⟨[c]⟩)
  | .jobj fields => fields.map (fun kv => .jstr kv.1)
  | _ => []

/-- `_generate_email_template` (lines 483-529): pure template rendering.
The contact block includes the email/phone lines only when the request
field is truthy. -/
def generateEmailTemplate (request : RiskAnalysisRequest)
    (attorney : RecommendedAttorney) (risks : JVal) : String :=
  let risksFormatted := String.intercalate "\n"
    ((jvalIter risks).map (fun risk => "â€¢ " ++ pyStrOf risk))
  let contactLines := ["- Company: " ++ request.companyName] ++
    (match request.companyemail with
     | some e => if e = "" then [] else ["- Email: " ++ e]
     | none => []) ++
    (match request.companyphonenumber with
     | some p => if p = "" then [] else ["- Phone: " ++ p]
     | none => [])
  let contactInfo := String.intercalate "\n" contactLines
  "Dear " ++ attorney.name ++ ",\n\n    I hope this email finds you well. " ++
    "I am reaching out regarding " ++ request.companyName ++
    ", a client seeking legal counsel in the " ++ request.practicearea ++
    " practice area.\n\n    Based on our preliminary analysis, we have " ++
    "identified the following potential legal risk areas that require " ++
    "attention:\n\n    " ++ risksFormatted ++
    "\n\n    Given your expertise in " ++ request.practicearea ++
    " and your track record handling similar matters, we believe you would " ++
    "be an excellent fit for this engagement.\n\n    Client Contact " ++
    "Information:\n    " ++ contactInfo ++
    "\n\n    Would you be available for an initial consultation to discuss " ++
    "these matters in more detail? Please let me know your availability, " ++
    "and I will coordinate with the client.\n\n    Best regards,\n    " ++
    "Legal Services Team\n    "

/-- The pydantic coercion of the returned confidence value into the
float field of the response model.  Numbers and booleans coerce; other values
fail validation.  (pydantic v1 would also coerce numeric strings, but a
string confidence cannot reach the response constructor: the `%`-format in
the extractor would already have raised, producing the numeric fallback.) -/
def coercePydanticFloat : JVal → Option Rat
  | .jnum q => some q
  | .jbool b => some (if b then 1 else 0)
  | _ => none

/-- The pydantic coercion of one risk entry into `str` (pydantic v1 coerces
numbers and booleans via `str(...)`; other values fail validation). -/
def coercePydanticStr : JVal → Option String
  | .jstr s => some s
  | .jnum q => some (toString q)
  | .jbool b => some (if b then "True" else "False")
  | _ => none

/-- The pydantic validation of the `risks: List[str]` field: the value must
be a list and every entry must coerce to `str`. -/
def validateRisks : JVal → Option (List String)
  | .jarr xs => xs.mapM coercePydanticStr
  | _ => none

/-- Constructing `RiskAnalysisResponse` (lines 80-88): pydantic validates
`risks` against `List[str]` and `confidence_score` against
`Field(ge=1.0, le=100.0)`; a validation failure raises out of
`analyze_company_risks`. -/
def mkRiskAnalysisResponse (request : RiskAnalysisRequest) (risks : JVal)
    (references : List ReferenceItem) (attorneys : List RecommendedAttorney)
    (emailTemplate : String) (confidence : JVal) :
    Except Unit RiskAnalysisResponse :=
  match validateRisks risks, coercePydanticFloat confidence with
  | some rs, some q =>
    if 1 ≤ q ∧ q ≤ 100 then
      .ok
        { company := request.companyName
          practice_area := request.practicearea
          risks := rs
          references := references
          recommended_attorneys := attorneys
          email_template := emailTemplate
          confidence_score := q }
    else .error ()
  | _, _ => .error ()

/-- `analyze_company_risks` (lines 35-99): retrieve the RAG context (never
raises), fetch the public sources (store failures propagate), run the
model-based risk extraction (never raises), match attorneys (store failures
propagate), take the top attorney (`attorneys[0]`, an `IndexError` if the
list were empty), render the email, and build the validated response.  The
prompt built in step 3 only feeds the model invocation, which the
environment models as an outcome, so its text is not materialised here. -/
def analyzeCompanyRisks (env : Env) (request : RiskAnalysisRequest) :
    Except Unit RiskAnalysisResponse := do
  let rag := retrieveRagContext env
  let publicSources ← getRelevantPublicSourcesE env request.practicearea
  let result := getLlmRiskAnalysis env.llm env.jsonParse publicSources
  let risks := result.1
  let references := result.2.1
  let confidence := result.2.2
  let attorneys ← findMatchingAttorneysE env request.practicearea rag.historical
  let top ← match attorneys with
    | [] => Except.error ()
    | a :: _ => Except.ok a
  let emailTemplate := generateEmailTemplate request top risks
  mkRiskAnalysisResponse request risks references attorneys emailTemplate confidence

/-! ## Concrete instances used by witnesses and counterexamples -/

/-- Whether a JSON value is a number. -/
def isJNum : JVal → Bool
  | .jnum _ => true
  | _ => false

/-- A sample analysis request. -/
def sampleRequest : RiskAnalysisRequest :=
  { companyName := "Acme Manufacturing"
    companyemail := none
    companyphonenumber := none
    practicearea := "Tax" }

/-- An environment whose record store for public sources raises while every
other collaborator behaves. -/
def envPublicDbDown : Env :=
  { internalDocs := .ok []
    historicalDocs := .ok []
    publicDb := .error ()
    attorneyDb := .ok []
    llm := .error ()
    jsonParse := fun _ => none }

/-- An environment in which both record stores answer (with empty data) and
the model invocation fails. -/
def envStoresOk : Env :=
  { internalDocs := .ok []
    historicalDocs := .ok []
    publicDb := .ok []
    attorneyDb := .ok []
    llm := .error ()
    jsonParse := fun _ => none }

/-- Historical content in which the literal identifier `ATT-AB12CD34` occurs
but overlaps an earlier non-overlapping scan match. -/
def overlapContent : String := "ATT-A0B1CATT-AB12CD34"

/-- A historical document carrying `overlapContent`. -/
def overlapDoc : RetrievedDoc :=
  { content := overlapContent, source := "eng-001.pdf", path := "p", score := 1 }

/-- An attorney whose id is the overlapped identifier. -/
def overlapAttorney : Attorney :=
  { attorney_id := "ATT-AB12CD34"
    name := "Alex Kim"
    email := "alex@example.com"
    seniority := "Associate"
    years_of_experience := 0
    practice_areas := [] }

/-- A completed public-source record in the Tax risk area. -/
def taxRecord : PublicSource :=
  { title := "Tax update"
    risk_area := some "Tax"
    summary := some "summary"
    jurisdiction := some "US"
    impact_level := some "High"
    url := "https://example.com/tax"
    enrichment_status := "completed" }

/-- A one-record public-source store with a completed Tax record. -/
def taxStore : List PublicSource := [taxRecord]

/-- A model response whose JSON object carries a boolean confidence. -/
def boolConfResp : String := "\x7b\"risks\": [], \"confidence_score\": true\x7d"

/-- The parsed form of `boolConfResp`. -/
def boolConfFields : List (String × JVal) :=
  [("risks", .jarr []), ("confidence_score", .jbool true)]

/-- A `json.loads` behaviour consistent with real JSON parsing of
`boolConfResp`. -/
def boolConfParse : String → Option JVal :=
  fun t => if t = boolConfResp then some (.jobj boolConfFields) else none

/-- A model response whose JSON object carries a string confidence. -/
def strConfResp : String := "\x7b\"risks\": [], \"confidence_score\": \"high\"\x7d"

/-- A `json.loads` behaviour consistent with real JSON parsing of
`strConfResp`. -/
def strConfParse : String → Option JVal :=
  fun t =>
    if t = strConfResp then
      some (.jobj [("risks", .jarr []), ("confidence_score", .jstr "high")])
    else none

end AttorneyMatching

namespace AttorneyMatching

/-- Auxiliary: the practice-area scoring fold equals the base accumulator plus
the sum of (40 + proficiency bonus) over the entries matching the target. -/
theorem foldl_score_eq_sum (practiceArea : String) :
    ∀ (l : List PracticeAreaEntry) (n : Nat),
      l.foldl (fun acc pa =>
          if pa.area = practiceArea then acc + 40 + proficiencyBonus pa.proficiency
          else acc) n =
        n + ((l.filter (fun pa => pa.area = practiceArea)).map
              (fun pa => 40 + proficiencyBonus pa.proficiency)).sum := by
  intro l
  induction l with
  | nil => intro n; simp
  | cons x xs ih =>
    intro n
    by_cases h : x.area = practiceArea
    · simp [List.filter_cons, h, ih]
      omega
    · simp [List.filter_cons, h, ih]

/-- C1: the attorney-matching score equals exactly the documented formula:
the sum over matching practice-area entries of (40 + proficiency bonus),
plus one seniority bonus, plus `min(years_of_experience, 20)`, plus 30 iff
the id of the attorney is among the historical identifiers; in particular the
documented Partner example scores 95. -/
theorem scoreAttorney_eq_formula :
    (∀ (practiceArea : String) (historicalIds : List String) (a : Attorney),
      scoreAttorney practiceArea historicalIds a =
        ((a.practice_areas.filter (fun pa => pa.area = practiceArea)).map
            (fun pa => 40 + proficiencyBonus pa.proficiency)).sum +
          seniorityBonus a.seniority + min a.years_of_experience 20 +
          (if a.attorney_id ∈ historicalIds then 30 else 0)) ∧
    scoreAttorney "Tax" [] examplePartner = 95 := by
  constructor
  · intro practiceArea historicalIds a
    unfold scoreAttorney
    rw [foldl_score_eq_sum]
    simp
  · decide

/-- Helper: the extractor produces the fixed fallback whenever the model
invocation raised or the stripped response fails to parse. -/
theorem getLlm_fallback_helper (invocation : Except Unit String)
    (jsonParse : String → Option JVal) (publicSources : List PublicSource)
    (h : invocation = .error () ∨
      ∃ raw, invocation = .ok raw ∧ jsonParse (stripMarkdown (pyStrip raw)) = none) :
    getLlmRiskAnalysis invocation jsonParse publicSources = llmFallback := by
  rcases h with h | ⟨raw, hraw, hparse⟩
  · rw [h]; rfl
  · rw [hraw]
    simp [getLlmRiskAnalysis, hparse]

/-- C2: for every failure of the model-invocation-or-parse path (the call
raising, or the response text failing to parse as JSON), the extractor
returns exactly the three fixed fallback risk statements, an empty
reference list and confidence 50; the embedding is a total function, so no
exception propagates to the caller. -/
theorem getLlmRiskAnalysis_fallback (invocation : Except Unit String)
    (jsonParse : String → Option JVal) (publicSources : List PublicSource)
    (h : invocation = .error () ∨
      ∃ raw, invocation = .ok raw ∧ jsonParse (stripMarkdown (pyStrip raw)) = none) :
    getLlmRiskAnalysis invocation jsonParse publicSources =
      (.jarr
        [.jstr "General compliance risk in the specified practice area requires assessment",
         .jstr "Regulatory changes may impact operations and require monitoring",
         .jstr "Documentation and reporting requirements need review"],
       ([] : List ReferenceItem), .jnum 50) :=
  getLlm_fallback_helper invocation jsonParse publicSources h

/-- Witness for C2 at a concrete failing invocation. -/
theorem getLlmRiskAnalysis_fallback_witness :
    getLlmRiskAnalysis (.error ()) (fun _ => none) [] =
      (.jarr
        [.jstr "General compliance risk in the specified practice area requires assessment",
         .jstr "Regulatory changes may impact operations and require monitoring",
         .jstr "Documentation and reporting requirements need review"],
       ([] : List ReferenceItem), .jnum 50) :=
  getLlmRiskAnalysis_fallback (.error ()) (fun _ => none) [] (Or.inl rfl)

/-- C10 counterexample: the response `{"risks": [], "confidence_score": true}`
parses as a JSON object whose `confidence_score` is not a number, yet the
extractor does **not** fall back: Python formats a boolean like an integer,
so the guarded block succeeds and the parsed risks are returned. -/
theorem boolConfidence_counterexample :
    boolConfParse (stripMarkdown (pyStrip boolConfResp)) = some (.jobj boolConfFields) ∧
    isJNum (objGet boolConfFields "confidence_score" (.jnum 85)) = false ∧
    getLlmRiskAnalysis (.ok boolConfResp) boolConfParse [] =
      (.jarr [], ([] : List ReferenceItem), .jbool true) ∧
    JVal.jbool true ≠ JVal.jnum 50 ∧
    (.jarr [], ([] : List ReferenceItem), JVal.jbool true) ≠ llmFallback := by
  refine ⟨rfl, rfl, rfl, ?_, ?_⟩
  · intro h
    exact nomatch h
  · intro h
    have h2 : JVal.jbool true = JVal.jnum 50 := congrArg (fun p => p.2.2) h
    exact nomatch h2

/-- C10 (amended): for every model response that parses as a JSON object
whose `confidence_score` value is neither a JSON number nor a boolean
(booleans are int subclasses in Python and format like integers), the
`%`-format of the confidence fails inside the guarded block and the
extractor returns the fixed fallback — the fallback path is reachable for
syntactically valid JSON. -/
theorem llm_fallback_on_unformattable_confidence
    (jsonParse : String → Option JVal) (publicSources : List PublicSource)
    (raw : String) (fields : List (String × JVal))
    (hparse : jsonParse (stripMarkdown (pyStrip raw)) = some (.jobj fields))
    (hfmt : pyPercentFormatOk (objGet fields "confidence_score" (.jnum 85)) = false) :
    getLlmRiskAnalysis (.ok raw) jsonParse publicSources = llmFallback := by
  simp [getLlmRiskAnalysis, hparse, hfmt]

/-- Witness for the amended C10: a string-valued confidence yields the
fallback. -/
theorem llm_fallback_on_unformattable_confidence_witness :
    getLlmRiskAnalysis (.ok strConfResp) strConfParse [] = llmFallback :=
  llm_fallback_on_unformattable_confidence strConfParse [] strConfResp
    [("risks", .jarr []), ("confidence_score", .jstr "high")] rfl rfl

/-- Helper: a replace pass leaves a string without any occurrence of the
pattern unchanged, for every fuel. -/
theorem replaceFuel_no_occurrence (pat rep : List Char) :
    ∀ (s : List Char) (n : Nat), ¬ pat <:+: s → replaceFuel pat rep n s = s := by
  intro s
  induction s with
  | nil => intro n _; cases n <;> rfl
  | cons c rest ih =>
    intro n h
    cases n with
    | zero => rfl
    | succ m =>
      have hnp : ¬ pat.isPrefixOf (c :: rest) = true := by
        rw [ List.isPrefixOf_iff_prefix]
        exact fun hp => h hp.isInfix
      simp only [replaceFuel, if_neg hnp]
      rw [ih m (fun hinf => h (List.infix_cons hinf))]

/-- Helper: scanning a segment containing no occurrence of the first
pattern character passes it through unchanged, spending one unit of fuel per
character. -/
theorem replaceFuel_clean_append (p0 : Char) (ps rep : List Char) :
    ∀ (b t : List Char) (n : Nat), (∀ c ∈ b, c ≠ p0) →
      replaceFuel (p0 :: ps) rep (b.length + n) (b ++ t) =
        b ++ replaceFuel (p0 :: ps) rep n t := by
  intro b
  induction b with
  | nil => intro t n _; simp
  | cons c b' ih =>
    intro t n hb
    have hc : c ≠ p0 := hb c (List.mem_cons_self c b')
    have hfuel : (c :: b').length + n = (b'.length + n) + 1 := by
      simp [List.length_cons]; omega
    rw [hfuel]
    have hnp : ¬ (p0 :: ps).isPrefixOf (c :: (b' ++ t)) = true := by
      rw [ List.isPrefixOf_iff_prefix]
      intro hp
      exact hc (List.cons_prefix_cons.mp hp).1.symm
    simp only [List.cons_append, replaceFuel, List.append_eq, if_neg hnp]
    rw [ih t n (fun d hd => hb d (List.mem_cons_of_mem c hd))]

/-- Helper: a replace pass at an occurrence of the pattern at the head
emits the replacement and continues after the occurrence. -/
theorem replaceFuel_head_match (p0 : Char) (ps rep t : List Char) (n : Nat) :
    replaceFuel (p0 :: ps) rep (n + 1) ((p0 :: ps) ++ t) =
      rep ++ replaceFuel (p0 :: ps) rep n t := by
  have hp : (p0 :: ps).isPrefixOf (p0 :: (ps ++ t)) = true := by
    rw [ List.isPrefixOf_iff_prefix]
    exact ⟨t, by simp⟩
  simp only [List.cons_append, replaceFuel, List.append_eq, if_pos hp,
    List.length_cons, List.drop_succ_cons, List.drop_left]

/-- C9 counterexample: on `"```json\nfoo```bar\n```"` the code removes the
**interior** occurrence of the fence marker as well (Python `replace`
replaces every occurrence) and strips whitespace, so the remainder of the
response is not left unchanged: the result is `"foobar"`, not the
remainder `"\nfoo```bar\n"`. -/
theorem stripMarkdown_counterexample :
    stripMarkdown "```json\nfoo```bar\n```" = "foobar" ∧
    stripMarkdown "```json\nfoo```bar\n```" ≠ "\nfoo```bar\n" ∧
    ("```".data <:+: "```json\nfoo```bar\n```".data) ∧
    ¬ ("```".data <:+: (stripMarkdown "```json\nfoo```bar\n```").data) := by
  refine ⟨by decide, by decide, by decide, by decide⟩

/-- Helper: if a string starts with the json fence marker it starts with the
plain fence marker. -/
theorem pyStartsWith_ticks_of_json {s : String}
    (h : pyStartsWith s "```json" = true) : pyStartsWith s "```" = true := by
  rw [pyStartsWith, List.isPrefixOf_iff_prefix] at h ⊢
  exact List.IsPrefix.trans (by decide) h

/-- Helper: the json fence pattern does not occur inside the closing plain
fence. -/
theorem json_pat_not_infix_ticks : ¬ (backtickChar :: "``json".data) <:+: "```".data := by
  intro h
  have hle := h.length_le
  have h7 : (backtickChar :: "``json".data).length = 7 := rfl
  have h3 : ("```".data : List Char).length = 3 := rfl
  rw [h7, h3] at hle
  omega

/-- Helper: the first `replace` pass on `"```json" ++ body ++ "```"` with a
backtick-free body removes exactly the leading marker. -/
theorem pyReplace_json_pass (body : String) (hbody : ∀ c ∈ body.data, c ≠ backtickChar) :
    pyReplace ("```json" ++ body ++ "```") "```json" "" = ⟨body.data ++ "```".data⟩ := by
  unfold pyReplace
  apply congrArg String.mk
  have hd : ("```json" ++ body ++ "```").data =
      "```json".data ++ (body.data ++ "```".data) := by
    rw [String.data_append, String.data_append, List.append_assoc]
  rw [hd]
  have h7 : ("```json".data : List Char).length = 7 := rfl
  have h3 : ("```".data : List Char).length = 3 := rfl
  have hl : ("```json".data ++ (body.data ++ "```".data)).length =
      (body.data.length + 9) + 1 := by
    simp [List.length_append, h7, h3]
  rw [hl]
  rw [show ("```json".data : List Char) = backtickChar :: "``json".data from rfl]
  rw [replaceFuel_head_match]
  rw [show ("".data : List Char) = [] from rfl, List.nil_append]
  rw [replaceFuel_clean_append backtickChar "``json".data [] body.data "```".data 9 hbody]
  rw [replaceFuel_no_occurrence _ _ _ _ json_pat_not_infix_ticks]

/-- Helper: the second `replace` pass removes the trailing marker. -/
theorem pyReplace_ticks_pass (body : String) (hbody : ∀ c ∈ body.data, c ≠ backtickChar) :
    pyReplace ⟨body.data ++ "```".data⟩ "```" "" = body := by
  unfold pyReplace
  have heta : (⟨body.data⟩ : String) = body := rfl
  rw [← heta]
  apply congrArg String.mk
  have hl : ((⟨body.data ++ "```".data⟩ : String)).data.length =
      body.data.length + 3 := by
    have h3 : ("```".data : List Char).length = 3 := rfl
    simp [List.length_append, h3]
  rw [hl]
  rw [show ((⟨body.data ++ "```".data⟩ : String)).data = body.data ++ "```".data from rfl]
  rw [show ("```".data : List Char) = backtickChar :: "``".data from rfl]
  rw [replaceFuel_clean_append backtickChar "``".data [] body.data
    (backtickChar :: "``".data) 3 hbody]
  rw [show replaceFuel (backtickChar :: "``".data) [] 3
    (backtickChar :: "``".data) = ([] : List Char) from rfl]
  simp

/-- C9 (amended): the fence-stripping step leaves a response that does not
begin with a fence marker unchanged; for a response of the shape
`"```json" + body + "```"` with a backtick-free body it yields the
whitespace-stripped body (leading and trailing markers removed); but it
removes **all** occurrences of the marker sequences, not only the
leading/trailing ones, as the interior occurrence in
`"```json\nfoo```bar\n```"` shows. -/
theorem stripMarkdown_amended :
    (∀ s : String, pyStartsWith s "```" = false → stripMarkdown s = s) ∧
    (∀ body : String, (∀ c ∈ body.data, c ≠ backtickChar) →
      stripMarkdown ("```json" ++ body ++ "```") = pyStrip body) ∧
    stripMarkdown "```json\nfoo```bar\n```" = "foobar" := by
  refine ⟨?_, ?_, by decide⟩
  · intro s h
    have h7 : pyStartsWith s "```json" = false := by
      rw [Bool.eq_false_iff]
      intro h7
      have := pyStartsWith_ticks_of_json h7
      rw [h] at this
      exact Bool.noConfusion this
    simp [stripMarkdown, h7, h]
  · intro body hbody
    have hsw : pyStartsWith ("```json" ++ body ++ "```") "```json" = true := by
      rw [pyStartsWith, List.isPrefixOf_iff_prefix]
      refine ⟨body.data ++ "```".data, ?_⟩
      rw [String.data_append, String.data_append, List.append_assoc]
    rw [stripMarkdown, if_pos hsw, pyReplace_json_pass body hbody,
      pyReplace_ticks_pass body hbody]

/-- Witness for the amended C9 at concrete inputs. -/
theorem stripMarkdown_amended_witness :
    stripMarkdown "no fences here" = "no fences here" ∧
    stripMarkdown ("```json" ++ "\n\"abc\"\n" ++ "```") = pyStrip "\n\"abc\"\n" :=
  ⟨stripMarkdown_amended.1 "no fences here" (by decide),
   stripMarkdown_amended.2.1 "\n\"abc\"\n" (by decide)⟩

/-- Helper: every identifier collected by the scan matches the pattern and
occurs as a substring of the scanned text. -/
theorem findAllAttAux_sound :
    ∀ (n : Nat) (s m : List Char), m ∈ findAllAttAux n s →
      isAttIdPattern m = true ∧ m <:+: s := by
  intro n
  induction n with
  | zero =>
    intro s m h
    cases s <;> simp [findAllAttAux] at h
  | succ k ih =>
    intro s m h
    cases s with
    | nil => simp [findAllAttAux] at h
    | cons c rest =>
      rw [findAllAttAux] at h
      cases hA : attHere (c :: rest) with
      | none =>
        rw [hA] at h
        obtain ⟨hpat, hinf⟩ := ih rest m h
        exact ⟨hpat, List.infix_cons hinf⟩
      | some m0 =>
        rw [hA] at h
        rcases List.mem_cons.mp h with rfl | h'
        · unfold attHere at hA
          by_cases hc : isAttIdPattern ((c :: rest).take 12) = true
          · rw [if_pos hc] at hA
            have hm : (c :: rest).take 12 = m := Option.some.inj hA
            rw [← hm]
            have hpref := List.take_prefix 12 (c :: rest)
            exact ⟨hc, hpref.isInfix⟩
          · rw [if_neg hc] at hA
            exact Option.noConfusion hA
        · obtain ⟨hpat, hinf⟩ := ih ((c :: rest).drop 12) m h'
          exact ⟨hpat, hinf.trans (List.drop_suffix 12 (c :: rest)).isInfix⟩

/-- C7 (amended): the historical-match evidence is sound — every collected
identifier matches the fixed pattern `ATT-[A-Z0-9]{8}` and is a substring
of the content of some historical document (with set semantics: the pipeline
only tests membership) — and whenever the identifier of an attorney is among
the collected evidence, its score carries exactly the +30 historical bonus
on top of the evidence-free score.  The scan is the left-to-right
**non-overlapping** `re.findall`, so a literal occurrence of
`ATT-AB12CD34` is only guaranteed to be collected when it does not overlap
an earlier match. -/
theorem extractHistoricalIds_sound_and_bonus :
    (∀ (docs : List RetrievedDoc) (id : String), id ∈ extractHistoricalIds docs →
      isAttIdPattern id.data = true ∧ ∃ doc ∈ docs, id.data <:+: doc.content.data) ∧
    (∀ (practiceArea : String) (docs : List RetrievedDoc) (a : Attorney),
      a.attorney_id ∈ extractHistoricalIds docs →
      scoreAttorney practiceArea (extractHistoricalIds docs) a =
        scoreAttorney practiceArea [] a + 30) := by
  constructor
  · intro docs id h
    rw [extractHistoricalIds, List.mem_flatMap] at h
    obtain ⟨doc, hdoc, hmem⟩ := h
    rw [findAllAtt, List.mem_map] at hmem
    obtain ⟨l, hl, rfl⟩ := hmem
    obtain ⟨hpat, hinf⟩ := findAllAttAux_sound doc.content.data.length doc.content.data l hl
    exact ⟨hpat, doc, hdoc, hinf⟩
  · intro practiceArea docs a h
    unfold scoreAttorney
    rw [if_pos h, if_neg (List.not_mem_nil a.attorney_id)]

/-- Witness for the amended C7: a content that is exactly one identifier. -/
theorem extractHistoricalIds_sound_and_bonus_witness :
    (isAttIdPattern "ATT-AB12CD34".data = true ∧
      ∃ doc ∈ [{ content := "ATT-AB12CD34", source := "h.pdf", path := "p",
                 score := 1 : RetrievedDoc }],
        "ATT-AB12CD34".data <:+: doc.content.data) ∧
    scoreAttorney "Tax"
        (extractHistoricalIds
          [{ content := "ATT-AB12CD34", source := "h.pdf", path := "p", score := 1 }])
        overlapAttorney =
      scoreAttorney "Tax" [] overlapAttorney + 30 :=
  ⟨extractHistoricalIds_sound_and_bonus.1
      [{ content := "ATT-AB12CD34", source := "h.pdf", path := "p", score := 1 }]
      "ATT-AB12CD34" (by decide),
   extractHistoricalIds_sound_and_bonus.2 "Tax"
      [{ content := "ATT-AB12CD34", source := "h.pdf", path := "p", score := 1 }]
      overlapAttorney (by decide)⟩

/-- C7 counterexample: in the content `"ATT-A0B1CATT-AB12CD34"` the literal
substring `ATT-AB12CD34` is present, but the non-overlapping left-to-right
scan first consumes `ATT-A0B1CATT`, so the overlapped identifier is never
collected and the attorney carrying it receives no +30 bonus (score 5 =
Associate bonus only, not 35). -/
theorem findAllAtt_overlap_counterexample :
    ("ATT-AB12CD34".data <:+: overlapContent.data) ∧
    extractHistoricalIds [overlapDoc] = ["ATT-A0B1CATT"] ∧
    overlapAttorney.attorney_id = "ATT-AB12CD34" ∧
    "ATT-AB12CD34" ∉ extractHistoricalIds [overlapDoc] ∧
    scoreAttorney "Tax" (extractHistoricalIds [overlapDoc]) overlapAttorney = 5 ∧
    scoreAttorney "Tax" [] overlapAttorney = 5 ∧
    (findMatchingAttorneys "Tax" [overlapDoc] [overlapAttorney] [] 3).map
        (fun r => r.match_score) = [5] := by
  refine ⟨?_, ?_, rfl, ?_, ?_, ?_, ?_⟩
  · decide
  · decide
  · decide
  · decide
  · decide
  · simp [findMatchingAttorneys, List.mergeSort_singleton, toRecommended]
    decide

/-- Helper: an association-list lookup misses every absent key. -/
theorem lookup_str_eq_none {β : Type} :
    ∀ (l : List (String × β)) (a : String), a ∉ l.map Prod.fst → l.lookup a = none := by
  intro l
  induction l with
  | nil => intro a _; rfl
  | cons kv rest ih =>
    intro a ha
    cases kv with
    | mk k v =>
      simp only [List.map_cons, List.mem_cons, not_or] at ha
      have hbeq : (a == k) = false := beq_eq_false_iff_ne.mpr ha.1
      simp [List.lookup, hbeq, ih a ha.2]

/-- C8 counterexample: the empty string is absent from the lookup table, so
the claim predicts it is used as the literal risk-area filter; but the Python
`if risk_area:` treats the empty string as falsy and drops the condition,
so every completed record is returned regardless of risk area. -/
theorem emptyPracticeArea_counterexample :
    "" ∉ riskAreaTable.map Prod.fst ∧
    riskAreaMapping "" = [""] ∧
    getRelevantPublicSources taxStore "" = [taxRecord] ∧
    (taxStore.filter (fun r =>
      r.risk_area = some "" && r.enrichment_status = "completed")).take 3 = [] ∧
    getRelevantPublicSources taxStore "" ≠
      (taxStore.filter (fun r =>
        r.risk_area = some "" && r.enrichment_status = "completed")).take 3 := by
  refine ⟨by decide, by decide, by decide, by decide, by decide⟩

/-- C8 (amended): for "Compliance" the matcher queries exactly the risk
areas Data Protection, Corporate Governance and Securities Law, taking at
most 3 completed records per risk area and concatenating in mapping order;
every returned record has enrichment status "completed"; and every
practice area absent from the table **other than the empty string** (which
Python treats as falsy and turns into no filter at all) is used as the
literal single risk-area filter. -/
theorem sourceMatcher_compliance_and_fallback :
    riskAreaMapping "Compliance" =
      ["Data Protection", "Corporate Governance", "Securities Law"] ∧
    (∀ store : List PublicSource,
      getRelevantPublicSources store "Compliance" =
        (store.filter (fun r =>
          r.risk_area = some "Data Protection" && r.enrichment_status = "completed")).take 3 ++
        (store.filter (fun r =>
          r.risk_area = some "Corporate Governance" && r.enrichment_status = "completed")).take 3 ++
        (store.filter (fun r =>
          r.risk_area = some "Securities Law" && r.enrichment_status = "completed")).take 3) ∧
    (∀ (store : List PublicSource) (practiceArea : String) (src : PublicSource),
      src ∈ getRelevantPublicSources store practiceArea →
        src.enrichment_status = "completed") ∧
    (∀ (store : List PublicSource) (riskArea : String),
      ((get_public_sources store (some riskArea) none (some "completed")).take 3).length ≤ 3) ∧
    (∀ practiceArea : String,
      practiceArea ∉ riskAreaTable.map Prod.fst → practiceArea ≠ "" →
      ∀ store : List PublicSource,
        getRelevantPublicSources store practiceArea =
          (store.filter (fun r =>
            r.risk_area = some practiceArea && r.enrichment_status = "completed")).take 3) := by
  refine ⟨rfl, ?_, ?_, ?_, ?_⟩
  · intro store
    rw [getRelevantPublicSources,
      show riskAreaMapping "Compliance" =
        ["Data Protection", "Corporate Governance", "Securities Law"] from rfl]
    simp [get_public_sources, List.append_assoc]
  · intro store practiceArea src h
    rw [getRelevantPublicSources, List.mem_flatMap] at h
    obtain ⟨riskArea, _, hmem⟩ := h
    have h1 := List.mem_of_mem_take hmem
    rw [get_public_sources] at h1
    have h2 := List.of_mem_filter h1
    simp at h2
    exact h2.2
  · intro store riskArea
    rw [List.length_take]
    omega
  · intro practiceArea hnot hne store
    have hlookup : riskAreaTable.lookup practiceArea = none :=
      lookup_str_eq_none riskAreaTable practiceArea hnot
    rw [getRelevantPublicSources, riskAreaMapping, hlookup]
    simp [get_public_sources, hne]

/-- Helper: `scoreDescending` is transitive. -/
theorem scoreDescending_trans :
    ∀ (x y z : Attorney × Nat), scoreDescending x y = true →
      scoreDescending y z = true → scoreDescending x z = true := by
  intro x y z h1 h2
  simp [scoreDescending] at h1 h2 ⊢
  omega

/-- Helper: `scoreDescending` is total. -/
theorem scoreDescending_total :
    ∀ (x y : Attorney × Nat), (scoreDescending x y || scoreDescending y x) = true := by
  intro x y
  simp [scoreDescending]
  omega

/-- C5: for every attorney pool and target practice area, the
recommended-attorney list is the `topN`-prefix of the stably sorted scored
pool: it is sorted by match score descending, and equal-score attorneys
retain the relative order in which the upstream fetch produced them (the
score-`s` fibre of the ranking equals the score-`s` fibre of the scored
input, for every `s`). -/
theorem findMatchingAttorneys_ranking
    (practiceArea : String) (historicalDocs : List RetrievedDoc)
    (matching fullPool : List Attorney) (topN : Nat)
    (h : matching ≠ [] ∨ fullPool ≠ []) :
    let pool := if matching.isEmpty then fullPool else matching
    let ids := extractHistoricalIds historicalDocs
    let scored := pool.map (fun a => (a, scoreAttorney practiceArea ids a))
    let ranked := scored.mergeSort scoreDescending
    findMatchingAttorneys practiceArea historicalDocs matching fullPool topN =
        (ranked.take topN).map (fun p => toRecommended ids p.1 p.2) ∧
      ((findMatchingAttorneys practiceArea historicalDocs matching fullPool topN).map
          (fun rec => rec.match_score)).Pairwise (fun x y => y ≤ x) ∧
      ∀ s : Nat, ranked.filter (fun p => p.2 = s) = scored.filter (fun p => p.2 = s) := by
  intro pool ids scored ranked
  have hpool : pool ≠ [] := by
    show (if matching.isEmpty = true then fullPool else matching) ≠ []
    by_cases hm : matching.isEmpty = true
    · rw [if_pos hm]
      rcases h with h | h
      · exact absurd (List.isEmpty_iff.mp hm) h
      · exact h
    · rw [if_neg hm]
      exact fun hh => hm (List.isEmpty_iff.mpr hh)
  have hcond : ¬ pool.isEmpty = true := fun he => hpool (List.isEmpty_iff.mp he)
  have hfind : findMatchingAttorneys practiceArea historicalDocs matching fullPool topN =
      (ranked.take topN).map (fun p => toRecommended ids p.1 p.2) := by
    simp only [findMatchingAttorneys]
    rw [if_neg hcond]
  have hsorted := List.sorted_mergeSort scoreDescending_trans scoreDescending_total scored
  refine ⟨hfind, ?_, ?_⟩
  · rw [hfind, List.map_map]
    have hmap : ((fun rec => rec.match_score) ∘ fun p => toRecommended ids p.1 p.2) =
        fun p : Attorney × Nat => p.2 := rfl
    rw [hmap]
    apply List.pairwise_map.mpr
    have hranked : ranked.Pairwise (fun a b : Attorney × Nat => b.2 ≤ a.2) :=
      hsorted.imp (fun hab => by simpa [scoreDescending] using hab)
    exact List.Pairwise.sublist (List.take_sublist topN ranked) hranked
  · intro s
    have hfsub : List.Sublist (scored.filter (fun p => p.2 = s)) scored :=
      List.filter_sublist scored
    have hfpair : (scored.filter (fun p => p.2 = s)).Pairwise
        (fun a b => scoreDescending a b = true) := by
      apply List.pairwise_of_forall_mem_list
      intro a ha b hb
      have hpa := List.of_mem_filter ha
      have hpb := List.of_mem_filter hb
      simp [scoreDescending]
      simp at hpa hpb
      omega
    have hsub2 : List.Sublist (scored.filter (fun p => p.2 = s)) ranked :=
      List.sublist_mergeSort scoreDescending_trans scoreDescending_total hfpair hfsub
    have hsub3 : List.Sublist (scored.filter (fun p => p.2 = s))
        (ranked.filter (fun p => p.2 = s)) := by
      have hff := hsub2.filter (fun p => p.2 = s)
      rw [List.filter_filter] at hff
      simpa using hff
    have hperm : List.Perm (ranked.filter (fun p => p.2 = s))
        (scored.filter (fun p => p.2 = s)) :=
      (List.mergeSort_perm scored scoreDescending).filter _
    exact (hsub3.eq_of_length hperm.length_eq.symm).symm

/-- Witness for C5 at a concrete singleton pool. -/
theorem findMatchingAttorneys_ranking_witness :
    let pool := if ([overlapAttorney] : List Attorney).isEmpty then
      ([] : List Attorney) else [overlapAttorney]
    let ids := extractHistoricalIds []
    let scored := pool.map (fun a => (a, scoreAttorney "Tax" ids a))
    let ranked := scored.mergeSort scoreDescending
    findMatchingAttorneys "Tax" [] [overlapAttorney] [] 3 =
        (ranked.take 3).map (fun p => toRecommended ids p.1 p.2) ∧
      ((findMatchingAttorneys "Tax" [] [overlapAttorney] [] 3).map
          (fun rec => rec.match_score)).Pairwise (fun x y => y ≤ x) ∧
      ∀ s : Nat, ranked.filter (fun p => p.2 = s) = scored.filter (fun p => p.2 = s) :=
  findMatchingAttorneys_ranking "Tax" [] [overlapAttorney] [] 3
    (Or.inl (by decide))

/-- Helper: the matching step always recommends at least one attorney when
called with the orchestrator default of three entries. -/
theorem one_le_length_findMatchingAttorneys (practiceArea : String)
    (historicalDocs : List RetrievedDoc) (matching fullPool : List Attorney) :
    1 ≤ (findMatchingAttorneys practiceArea historicalDocs matching fullPool 3).length := by
  simp only [findMatchingAttorneys]
  by_cases hp : (if matching.isEmpty = true then fullPool else matching).isEmpty = true
  · rw [if_pos hp]
    simp
  · rw [if_neg hp]
    rw [List.length_map, List.length_take, List.length_mergeSort, List.length_map]
    have hne : (if matching.isEmpty = true then fullPool else matching) ≠ [] :=
      fun he => hp (List.isEmpty_iff.mpr he)
    have := List.length_pos.mpr hne
    omega

/-- Helper: inverting a successful pipeline run — the confidence is within
the pydantic bounds and the recommended attorneys are exactly the matching
step output over the attorney store. -/
theorem analyze_ok_inv (env : Env) (request : RiskAnalysisRequest)
    (r : RiskAnalysisResponse) (h : analyzeCompanyRisks env request = .ok r) :
    (1 ≤ r.confidence_score ∧ r.confidence_score ≤ 100) ∧
    ∃ store : List Attorney, env.attorneyDb = .ok store ∧
      r.recommended_attorneys =
        findMatchingAttorneys request.practicearea (searchCaught env.historicalDocs)
          (store.filter (hasPracticeArea request.practicearea)) store 3 := by
  unfold analyzeCompanyRisks at h
  cases hpub : getRelevantPublicSourcesE env request.practicearea with
  | error e =>
    rw [hpub] at h
    simp [Bind.bind, Except.bind] at h
  | ok pubs =>
    rw [hpub] at h
    simp only [Bind.bind, Except.bind] at h
    cases hdb : env.attorneyDb with
    | error e =>
      rw [findMatchingAttorneysE, hdb] at h
      simp [Except.map] at h
    | ok store =>
      rw [findMatchingAttorneysE, hdb] at h
      simp only [Except.map] at h
      cases hatt : findMatchingAttorneys request.practicearea
          (retrieveRagContext env).historical
          (store.filter (hasPracticeArea request.practicearea)) store 3 with
      | nil =>
        have h1 := one_le_length_findMatchingAttorneys request.practicearea
          (retrieveRagContext env).historical
          (store.filter (hasPracticeArea request.practicearea)) store
        rw [hatt] at h1
        simp at h1
      | cons a rest =>
        rw [hatt] at h
        simp only [] at h
        unfold mkRiskAnalysisResponse at h
        cases hv : validateRisks (getLlmRiskAnalysis env.llm env.jsonParse pubs).1 with
        | none =>
          rw [hv] at h
          simp at h
        | some rs =>
          cases hc : coercePydanticFloat (getLlmRiskAnalysis env.llm env.jsonParse pubs).2.2 with
          | none =>
            rw [hv, hc] at h
            simp at h
          | some q =>
            rw [hv, hc] at h
            simp only [] at h
            by_cases hb : 1 ≤ q ∧ q ≤ 100
            · rw [if_pos hb] at h
              have hr := Except.ok.inj h
              refine ⟨?_, store, rfl, ?_⟩
              · rw [← hr]
                exact hb
              · rw [← hr, ← hatt]
                rfl
            · rw [if_neg hb] at h
              simp at h

/-- C4: whenever the pipeline returns a result, its confidence score lies in
[1, 100] — enforced by the response model validation, whichever of the
parsed, defaulted or fallback confidence reaches it. -/
theorem analyze_confidence_score_bounds (env : Env) (request : RiskAnalysisRequest)
    (r : RiskAnalysisResponse) (h : analyzeCompanyRisks env request = .ok r) :
    1 ≤ r.confidence_score ∧ r.confidence_score ≤ 100 :=
  (analyze_ok_inv env request r h).1

/-- Witness for C4: a concrete environment on which the pipeline returns. -/
theorem analyze_confidence_score_bounds_witness :
    ∃ r, analyzeCompanyRisks envStoresOk sampleRequest = Except.ok r ∧
      1 ≤ r.confidence_score ∧ r.confidence_score ≤ 100 := by
  cases hh : analyzeCompanyRisks envStoresOk sampleRequest with
  | error e =>
    have hok : (analyzeCompanyRisks envStoresOk sampleRequest).isOk = true := by decide
    rw [hh] at hok
    simp [Except.isOk, Except.toBool] at hok
  | ok r =>
    exact ⟨r, rfl, analyze_confidence_score_bounds envStoresOk sampleRequest r hh⟩

/-- C6: every successful pipeline result recommends at least one attorney;
an empty practice-area match falls back to the full pool; and an entirely
empty pool yields the single sentinel entry (name "General Counsel", role
"Partner", score 0) instead of an error. -/
theorem recommended_attorneys_nonempty :
    (∀ (env : Env) (request : RiskAnalysisRequest) (r : RiskAnalysisResponse),
      analyzeCompanyRisks env request = .ok r → 1 ≤ r.recommended_attorneys.length) ∧
    (∀ (practiceArea : String) (historicalDocs : List RetrievedDoc)
        (fullPool : List Attorney) (topN : Nat),
      findMatchingAttorneys practiceArea historicalDocs [] fullPool topN =
        findMatchingAttorneys practiceArea historicalDocs fullPool fullPool topN) ∧
    (∀ (practiceArea : String) (historicalDocs : List RetrievedDoc),
      findMatchingAttorneys practiceArea historicalDocs [] [] 3 = [noAttorneySentinel]) ∧
    noAttorneySentinel.name = "General Counsel" ∧
    noAttorneySentinel.role = "Partner" ∧
    noAttorneySentinel.match_score = 0 := by
  refine ⟨?_, ?_, fun _ _ => rfl, rfl, rfl, rfl⟩
  · intro env request r h
    obtain ⟨_, store, _, hrec⟩ := analyze_ok_inv env request r h
    rw [hrec]
    exact one_le_length_findMatchingAttorneys _ _ _ _
  · intro practiceArea historicalDocs fullPool topN
    cases fullPool with
    | nil => rfl
    | cons a t => rfl

/-- Witness for C6: a run over empty stores still recommends an attorney. -/
theorem recommended_attorneys_nonempty_witness :
    (∃ r, analyzeCompanyRisks envStoresOk sampleRequest = Except.ok r ∧
      1 ≤ r.recommended_attorneys.length) ∧
    findMatchingAttorneys "Tax" [] [] [] 3 = [noAttorneySentinel] := by
  constructor
  · cases hh : analyzeCompanyRisks envStoresOk sampleRequest with
    | error e =>
      have hok : (analyzeCompanyRisks envStoresOk sampleRequest).isOk = true := by decide
      rw [hh] at hok
      simp [Except.isOk, Except.toBool] at hok
    | ok r =>
      exact ⟨r, rfl, recommended_attorneys_nonempty.1 envStoresOk sampleRequest r hh⟩
  · exact recommended_attorneys_nonempty.2.2.1 "Tax" []

/-- C3 counterexample: a record-store failure during the public-source fetch
propagates out of `analyze_company_risks` (neither
`PublicSourceService.get_public_sources` nor the orchestrator catches it),
so the pipeline entry point **can** raise even though every other
collaborator behaves. -/
theorem analyze_raises_on_store_failure :
    analyzeCompanyRisks envPublicDbDown sampleRequest = .error () := rfl

/-- C3 (amended): failures of the document searches are contained in the
retriever and failures of the model invocation or JSON parse are contained
in the extractor — under any such failures the orchestrator still returns a
complete response — **provided** the two record stores answer; a
record-store failure propagates out of `analyze_company_risks`. -/
theorem analyze_ok_when_stores_ok_and_llm_fails (env : Env)
    (request : RiskAnalysisRequest) (store : List PublicSource)
    (pool : List Attorney) (hpub : env.publicDb = .ok store)
    (hdb : env.attorneyDb = .ok pool)
    (hllm : env.llm = .error () ∨
      ∃ raw, env.llm = .ok raw ∧ env.jsonParse (stripMarkdown (pyStrip raw)) = none) :
    ∃ r, analyzeCompanyRisks env request = .ok r := by
  unfold analyzeCompanyRisks
  have h1 : getRelevantPublicSourcesE env request.practicearea =
      .ok (getRelevantPublicSources store request.practicearea) := by
    rw [getRelevantPublicSourcesE, hpub]
    rfl
  rw [h1]
  simp only [Bind.bind, Except.bind]
  have h2 := getLlm_fallback_helper env.llm env.jsonParse
    (getRelevantPublicSources store request.practicearea) hllm
  rw [h2]
  have h3 : findMatchingAttorneysE env request.practicearea
      (retrieveRagContext env).historical =
      .ok (findMatchingAttorneys request.practicearea
        (retrieveRagContext env).historical
        (pool.filter (hasPracticeArea request.practicearea)) pool 3) := by
    rw [findMatchingAttorneysE, hdb]
    rfl
  rw [h3]
  cases hatt : findMatchingAttorneys request.practicearea
      (retrieveRagContext env).historical
      (pool.filter (hasPracticeArea request.practicearea)) pool 3 with
  | nil =>
    have hlen := one_le_length_findMatchingAttorneys request.practicearea
      (retrieveRagContext env).historical
      (pool.filter (hasPracticeArea request.practicearea)) pool
    rw [hatt] at hlen
    simp at hlen
  | cons a rest =>
    exact ⟨_, rfl⟩

/-- Witness for the amended C3 at a concrete environment. -/
theorem analyze_ok_when_stores_ok_and_llm_fails_witness :
    ∃ r, analyzeCompanyRisks envStoresOk sampleRequest = Except.ok r :=
  analyze_ok_when_stores_ok_and_llm_fails envStoresOk sampleRequest [] []
    rfl rfl (Or.inl rfl)

/-- Witness for the amended C8 at concrete inputs. -/
theorem sourceMatcher_witness :
    riskAreaMapping "Compliance" =
      ["Data Protection", "Corporate Governance", "Securities Law"] ∧
    taxRecord.enrichment_status = "completed" ∧
    getRelevantPublicSources taxStore "Space Law" =
      (taxStore.filter (fun r =>
        r.risk_area = some "Space Law" && r.enrichment_status = "completed")).take 3 :=
  ⟨sourceMatcher_compliance_and_fallback.1,
   sourceMatcher_compliance_and_fallback.2.2.1 taxStore "Tax" taxRecord (by decide),
   sourceMatcher_compliance_and_fallback.2.2.2.2 "Space Law" (by decide) (by decide) taxStore⟩

end AttorneyMatching
